import Mathlib

/-!
Shallow embedding of the process-lifecycle core of Icinga 2
(`src/base/application.cpp`, `src/base/application.h`), verified against
its natural-language specification.

The embedding models:
* the process-global state touched by `Application::Shutdown`,
  `Application::GetInstance`, the destructor, `Run` and the SIGINT handler
  (`m_ShuttingDown`, `m_Instance`) as an explicit state machine;
* `Application::RunEventLoop` as a trace-producing function over an
  environment script (what the timers, held objects and events do in each
  iteration, in particular whether they request shutdown);
* the component registry (`RegisterComponent`, `UnregisterComponent`,
  `GetComponent`) over an association list mirroring the `std::map`
  used in the source, with explicit logs of `Start`/`Stop` calls;
* `Application::LoadComponent`'s POSIX error paths, with the loader
  (`lt_dlopen` / `lt_dlsym`) as an oracle;
* `Application::Run`'s top-level fault containment, with `Main` as an
  oracle returning either an exit code or a fault;
* `Application::GetExePath`'s POSIX resolution, with `getcwd`, `getenv`,
  `access` and `realpath` as oracles, including the `static string result`
  cache.
-/

namespace Icinga

/-! ### Global shutdown / singleton state machine

`m_ShuttingDown` and `m_Instance` are the only static members mutated by
`Shutdown`, `~Application`, `SigIntHandler`, `Run` and `m_Instance.reset()`.
We model the reachable global states and each mutating operation as a step.
-/

/-- The process-global static state of `Application`:
`m_ShuttingDown` and whether `m_Instance` currently holds a live object. -/
structure GlobalState where
  shuttingDown : Bool
  hasInstance : Bool
deriving DecidableEq, Repr

/-- `Application::GetInstance`: returns a null pointer when
`m_ShuttingDown` is set, otherwise returns `m_Instance` (which is itself
null unless `Run` has installed the singleton). -/
def GetInstance (s : GlobalState) : Option Unit :=
  if s.shuttingDown then none
  else if s.hasInstance then some () else none

/-- The operations of the source that mutate the global state:
`Application::Shutdown`, the destructor `~Application` (which sets
`m_ShuttingDown = true`), the SIGINT handler (which calls `Shutdown`
only when `GetInstance` returns a live handle), the singleton
installation in `Run`, and `m_Instance.reset()`. -/
inductive AppOp where
  | shutdown
  | destructor
  | sigInt
  | setInstance
  | resetInstance
deriving DecidableEq, Repr

/-- One step of the global state machine, translated operation by
operation from `application.cpp`. -/
def appStep (s : GlobalState) (op : AppOp) : GlobalState :=
  match op with
  | .shutdown => { s with shuttingDown := true }
  | .destructor => { s with shuttingDown := true }
  | .sigInt =>
      match GetInstance s with
      | none => s
      | some _ => { s with shuttingDown := true }
  | .setInstance => { s with hasInstance := true }
  | .resetInstance => { s with hasInstance := false }

/-- Running a whole sequence of operations from a state. -/
def appRun (s : GlobalState) (ops : List AppOp) : GlobalState :=
  ops.foldl appStep s

/-- The list of states visited while running `ops` from `s`
(including the initial state). -/
def appTrace (s : GlobalState) (ops : List AppOp) : List GlobalState :=
  match ops with
  | [] => [s]
  | op :: rest => s :: appTrace (appStep s op) rest

/-- Number of `false → true` rises in a boolean trace: how many times the
shutdown flag transitions Running → ShuttingDown. -/
def risesB : List Bool → Nat
  | false :: true :: rest => 1 + risesB (true :: rest)
  | _ :: rest => risesB rest
  | [] => 0

/-! ### Component registry

`m_Components` is a `std::map<string, Component::Ptr>`; we model it as an
association list with unique-key insert/erase semantics, and log every
`Component::Start` / `Component::Stop` call by the component's identity
(`cid`, standing for the object's address). -/

/-- A component object: its identity (`cid`, the C++ object address) and
the value returned by `GetName()`. -/
structure Component where
  cid : Nat
  name : String
deriving DecidableEq, Repr

/-- `std::map::find`-style lookup in the association list. -/
def mapFind (m : List (String × Component)) (k : String) : Option Component :=
  match m with
  | [] => none
  | (k', v) :: rest => if k' = k then some v else mapFind rest k

/-- `std::map::operator[]`-style insert: overwrite in place if the key is
present, append otherwise. -/
def mapInsert (m : List (String × Component)) (k : String) (v : Component) :
    List (String × Component) :=
  match m with
  | [] => [(k, v)]
  | (k', v') :: rest =>
      if k' = k then (k, v) :: rest else (k', v') :: mapInsert rest k v

/-- `std::map::erase` of the entry found for `k` (no-op when absent). -/
def mapErase (m : List (String × Component)) (k : String) :
    List (String × Component) :=
  match m with
  | [] => []
  | (k', v') :: rest =>
      if k' = k then rest else (k', v') :: mapErase rest k

/-- The registry state: the component map plus the logs of `Start` and
`Stop` calls (each entry is the `cid` of the component the call was made
on, in call order). -/
structure RegState where
  components : List (String × Component)
  starts : List Nat
  stops : List Nat
deriving DecidableEq, Repr

/-- The empty registry. -/
def emptyReg : RegState := { components := [], starts := [], stops := [] }

/-- `Application::RegisterComponent`: `m_Components[component->GetName()] =
component;` then `component->Start();`. -/
def RegisterComponent (s : RegState) (c : Component) : RegState :=
  { s with
    components := mapInsert s.components c.name c
    starts := s.starts ++ [c.cid] }

/-- `Application::UnregisterComponent`: look up `component->GetName()`,
erase the mapping if found, then `component->Stop();` unconditionally. -/
def UnregisterComponent (s : RegState) (c : Component) : RegState :=
  { s with
    components := mapErase s.components c.name
    stops := s.stops ++ [c.cid] }

/-- `Application::GetComponent`: pure lookup by name. -/
def GetComponent (s : RegState) (n : String) : Option Component :=
  mapFind s.components n

/-- Registering a whole sequence of components, in order. -/
def registerAll (s : RegState) (cs : List Component) : RegState :=
  cs.foldl RegisterComponent s

/-! ### Event loop

`Application::RunEventLoop` is a `while (!m_ShuttingDown)` loop. The
bodies of `Object::ClearHeldObjects`, `Timer::ProcessTimers`,
`Event::Wait` and the event callbacks live outside this file; any of them
may call `Application::Shutdown` (from the main thread or another one).
We model one iteration's environment as a record saying what value
`ProcessTimers` returns, which events `Wait` delivers, and whether the
shutdown flag gets set during each phase; the loop then produces the
trace of actions it performs. -/

/-- Behaviour of the outside world during one potential loop iteration. -/
structure LoopEnv where
  /-- shutdown requested by a destructor run in `ClearHeldObjects` -/
  sdDuringClear : Bool
  /-- value returned by `Timer::ProcessTimers` (seconds until next timer) -/
  sleep : Nat
  /-- shutdown requested by a timer callback in `ProcessTimers` -/
  sdDuringTimers : Bool
  /-- events delivered by `Event::Wait` (identified by a tag) -/
  events : List Nat
  /-- shutdown requested during the wait or an event callback -/
  sdDuringDispatch : Bool
deriving DecidableEq, Repr

/-- The observable actions of the event loop, in the order it performs
them. -/
inductive LoopAct where
  | clearHeld
  | processTimers (sleep : Nat)
  | wait (deadline : Nat)
  | dispatch (ev : Nat)
deriving DecidableEq, Repr

/-- `Application::RunEventLoop`, translated statement by statement:
while the flag is unset, clear held objects, process timers, break if the
flag became set, wait until the returned deadline, and dispatch every
delivered event in order. The environment script also bounds how many
iterations the outside world drives. -/
def RunEventLoop (sd : Bool) : List LoopEnv → List LoopAct
  | [] => []
  | i :: rest =>
      if sd then []
      else
        let sdAfterClear := sd || i.sdDuringClear
        let sdAfterTimers := sdAfterClear || i.sdDuringTimers
        LoopAct.clearHeld :: LoopAct.processTimers i.sleep ::
          (if sdAfterTimers then []
           else LoopAct.wait i.sleep ::
             (i.events.map LoopAct.dispatch ++
               RunEventLoop (sdAfterTimers || i.sdDuringDispatch) rest))

/-- Written from the spec's words: the five steps of one iteration, in
order — (1) tombstone cleanup, (2) fire due timers obtaining the seconds
until the next deadline, (3) re-check the shutdown flag and stop before
waiting if it is set, (4) block on the event queue until the deadline,
(5) dispatch each delivered event's callback in enqueue order. -/
def specIterSteps (i : LoopEnv) : List (List LoopAct) :=
  [[LoopAct.clearHeld],
   [LoopAct.processTimers i.sleep]] ++
  (if i.sdDuringClear || i.sdDuringTimers then []
   else [[LoopAct.wait i.sleep], i.events.map LoopAct.dispatch])

/-- Written from the spec's words: the whole loop is the concatenation of
iterations, each with the shape `specIterSteps`, stopping as soon as the
shutdown flag is observed set at an iteration boundary or at the step-(3)
re-check. -/
def specEventLoop (sd : Bool) : List LoopEnv → List LoopAct
  | [] => []
  | i :: rest =>
      if sd then []
      else
        (specIterSteps i).flatten ++
          (if i.sdDuringClear || i.sdDuringTimers then []
           else specEventLoop i.sdDuringDispatch rest)

/-! ### Top-level fault containment (`Application::Run`)

`Main` is abstract in the source (`virtual int Main(...) = 0`); we model
it as an oracle returning either an exit code or a fault (a C++ exception
with a dynamic type name and a `what()` message). -/

/-- A fault escaping `Main`: its dynamic type name and message. -/
structure Fault where
  typeName : String
  message : String
deriving DecidableEq, Repr

/-- `EXIT_FAILURE`. -/
def EXIT_FAILURE : Int := 1

/-- The observable outcome of `Application::Run` after the singleton has
been installed and `Main` invoked: the returned exit code or the
propagated fault, whether `m_Instance` still holds the singleton, and the
critical log lines written. -/
structure RunOutcome where
  result : Except Fault Int
  instanceSet : Bool
  logs : List String
deriving Repr

/-- `Application::Run`, translated from the source: install the singleton,
then — in debug mode — call `Main` with no fault boundary (so a fault
unwinds past the `m_Instance.reset()` statement), and — otherwise — call
`Main` inside a try/catch that on a fault resets `m_Instance`, logs the
fault's type name and message, and returns `EXIT_FAILURE`. -/
def Run (debugging : Bool) (main : List String → Except Fault Int)
    (args : List String) : RunOutcome :=
  if debugging then
    match main args with
    | .ok r => { result := .ok r, instanceSet := false, logs := [] }
    | .error f => { result := .error f, instanceSet := true, logs := [] }
  else
    match main args with
    | .ok r => { result := .ok r, instanceSet := true, logs := [] }
    | .error f =>
        { result := .ok EXIT_FAILURE
          instanceSet := false
          logs := ["---",
                   "Exception: " ++ f.typeName,
                   "Message: " ++ f.message] }

/-! ### Component loading (`Application::LoadComponent`, POSIX branch)

`lt_dlopen`, `lt_dlerror`, `lt_dlsym` and the factory are oracles. -/

/-- The loader environment: `lt_dlopen` (library handle per path),
`lt_dlerror` (diagnostic when the open failed), `lt_dlsym` (whether a
handle exports a symbol, and the factory tag), and the component the
factory produces. -/
structure LoaderEnv where
  dlopen : String → Option Nat
  dlerror : String
  dlsym : Nat → String → Option Nat
  create : Nat → Component

/-- `Application::LoadComponent` (POSIX branch): open the library at
`path` (on failure, `runtime_error` naming the path and the loader
diagnostic); resolve the `CreateComponent` symbol (on absence,
`runtime_error` with a fixed message); invoke the factory and register
the resulting component. Errors are the `what()` strings of the thrown
`runtime_error`s. -/
def LoadComponent (env : LoaderEnv) (path : String) (s : RegState) :
    Except String (Component × RegState) :=
  match env.dlopen path with
  | none =>
      .error ("Could not load module '" ++ path ++ "': " ++ env.dlerror)
  | some hModule =>
      match env.dlsym hModule "CreateComponent" with
      | none =>
          .error "Loadable module does not contain CreateComponent function"
      | some factory =>
          let component := env.create factory
          .ok (component, RegisterComponent s component)

/-- `needle` occurs as a contiguous substring of `hay`. -/
def strContains (hay needle : String) : Prop :=
  ∃ pre post, hay.data = pre ++ needle.data ++ post

/-! ### Executable path resolution (`Application::GetExePath`, POSIX)

`getcwd`, `getenv("PATH")`, `access(·, X_OK)` and `realpath` are
oracles. -/

/-- Splitting a character list at every occurrence of `sep`
(`boost::algorithm::split` with `is_any_of(":")`). -/
def splitCh (sep : Char) : List Char → List (List Char)
  | [] => [[]]
  | c :: rest =>
      let r := splitCh sep rest
      if c = sep then [] :: r
      else
        match r with
        | [] => [[c]]
        | f :: fs => (c :: f) :: fs

/-- Splitting a string on a separator character. -/
def splitStr (sep : Char) (s : String) : List String :=
  (splitCh sep s.data).map (fun l => ⟨l⟩)

/-- The OS environment `GetExePath` consults. -/
structure ExeEnv where
  /-- `getcwd` (None = failure) -/
  cwd : Option String
  /-- `getenv("PATH")` -/
  pathEnv : Option String
  /-- `access(p, X_OK) == 0` -/
  access : String → Bool
  /-- `realpath` (None = failure) -/
  realpath : String → Option String

/-- Errors thrown by `GetExePath`: `PosixException` (getcwd / realpath
failures, the I/O errors) or `runtime_error` (executable not found on
PATH). -/
inductive ExeErr where
  | posixError (msg : String)
  | runtimeError (msg : String)
deriving DecidableEq, Repr

/-- `Application::GetExePath` (POSIX branch, cache aside), translated
from the source: get the working directory (failure → `PosixException`);
prepend it to `argv0` unless `argv0` is absolute; when `argv0` contains
no `/` and `PATH` is set, replace the candidate by the first
`dir + "/" + argv0` that is executable, failing with a `runtime_error`
when no directory matches; finally canonicalize with `realpath`
(failure → `PosixException`). -/
def resolveExePath (env : ExeEnv) (argv0 : String) : Except ExeErr String :=
  match env.cwd with
  | none => .error (.posixError "getcwd failed")
  | some workingDirectory =>
      let executablePath :=
        if argv0.data.head? ≠ some '/' then workingDirectory ++ "/" ++ argv0
        else argv0
      let searched : Except ExeErr String :=
        if argv0.data.contains '/' then .ok executablePath
        else
          match env.pathEnv with
          | none => .ok executablePath
          | some pathEnv =>
              let paths := splitStr ':' pathEnv
              match paths.find? (fun p => env.access (p ++ "/" ++ argv0)) with
              | some p => .ok (p ++ "/" ++ argv0)
              | none => .error (.runtimeError "Could not determine executable path.")
      match searched with
      | .error e => .error e
      | .ok ep =>
          match env.realpath ep with
          | none => .error (.posixError "realpath failed")
          | some canonical => .ok canonical

/-- The observable behaviour of one `GetExePath` call: its result, the
`static string result` cache afterwards, and whether the call actually
ran the resolution (as opposed to returning the cached value). -/
structure ExeCall where
  out : Except ExeErr String
  cache : String
  resolved : Bool
deriving Repr

/-- `Application::GetExePath` including the `static string result` cache:
a non-empty cache is returned as-is without re-resolving; otherwise the
path is resolved and, on success, stored in the cache. -/
def GetExePath (cache : String) (env : ExeEnv) (argv0 : String) : ExeCall :=
  if cache ≠ "" then { out := .ok cache, cache := cache, resolved := false }
  else
    match resolveExePath env argv0 with
    | .ok r => { out := .ok r, cache := r, resolved := true }
    | .error e => { out := .error e, cache := cache, resolved := true }

/-! ## Helper lemmas -/

/-- Every operation preserves a set shutdown flag: no step of the source
writes `false` into `m_ShuttingDown`. -/
lemma appStep_sd_mono (s : GlobalState) (op : AppOp)
    (h : s.shuttingDown = true) : (appStep s op).shuttingDown = true := by
  cases op <;> simp [appStep, GetInstance, h]

lemma appRun_sd_mono (ops : List AppOp) (s : GlobalState)
    (h : s.shuttingDown = true) : (appRun s ops).shuttingDown = true := by
  induction ops generalizing s with
  | nil => exact h
  | cons op rest ih => exact ih (appStep s op) (appStep_sd_mono s op h)

/-- Once the flag is set, the whole remaining trace has it set. -/
lemma appTrace_all_true (ops : List AppOp) (s : GlobalState)
    (h : s.shuttingDown = true) :
    (appTrace s ops).map GlobalState.shuttingDown =
      List.replicate (ops.length + 1) true := by
  induction ops generalizing s with
  | nil => simp [appTrace, h]
  | cons op rest ih =>
      simp only [appTrace, List.map_cons, h, List.length_cons]
      rw [ih (appStep s op) (appStep_sd_mono s op h)]
      simp [List.replicate_succ]

/-- The shutdown-flag projection of any trace is a block of `false`
followed by a block of `true`: the flag flips at most once and never
reverts. -/
lemma appTrace_sd_shape (ops : List AppOp) (s : GlobalState) :
    ∃ i j, (appTrace s ops).map GlobalState.shuttingDown =
      List.replicate i false ++ List.replicate j true := by
  induction ops generalizing s with
  | nil =>
      cases h : s.shuttingDown
      · exact ⟨1, 0, by simp [appTrace, h]⟩
      · exact ⟨0, 1, by simp [appTrace, h]⟩
  | cons op rest ih =>
      cases h : s.shuttingDown
      · obtain ⟨i, j, hij⟩ := ih (appStep s op)
        refine ⟨i + 1, j, ?_⟩
        simp only [appTrace, List.map_cons, h, hij, List.replicate_succ]
        rfl
      · exact ⟨0, (op :: rest).length + 1, by
          simp only [appTrace_all_true (op :: rest) s h, List.replicate,
            List.nil_append]⟩

/-! ## Claims -/

/-- C1: the shutdown transition is monotonic and idempotent.
(1) After any sequence of operations from a state with the flag set, the
flag is still set (no reachable state reverts to Running); (2) a second
`Shutdown()` is a no-op on top of a first one, so any number of calls
from any interleaving produce the same state as one call; (3) once the
process is shutting down, `GetInstance()` returns nothing; (4) along any
trace, the flag is a block of Running states followed by a block of
ShuttingDown states — it moves Running → ShuttingDown at most once. -/
theorem shutdown_monotone_idempotent :
    (∀ (s : GlobalState) (ops : List AppOp), s.shuttingDown = true →
        (appRun s ops).shuttingDown = true) ∧
    (∀ s : GlobalState,
        appStep (appStep s .shutdown) .shutdown = appStep s .shutdown) ∧
    (∀ s : GlobalState, s.shuttingDown = true → GetInstance s = none) ∧
    (∀ (s : GlobalState) (ops : List AppOp),
        ∃ i j, (appTrace s ops).map GlobalState.shuttingDown =
          List.replicate i false ++ List.replicate j true) := by
  refine ⟨fun s ops h => appRun_sd_mono ops s h, fun s => rfl,
    fun s h => ?_, fun s ops => appTrace_sd_shape ops s⟩
  simp [GetInstance, h]

/-- Witness for C1 at concrete inputs. -/
theorem shutdown_monotone_idempotent_witness :
    (appRun ⟨true, false⟩ [.setInstance, .sigInt, .resetInstance]).shuttingDown
        = true ∧
    appStep (appStep ⟨false, true⟩ .shutdown) .shutdown =
        appStep ⟨false, true⟩ .shutdown ∧
    GetInstance ⟨true, true⟩ = none ∧
    (∃ i j, (appTrace ⟨false, true⟩ [.shutdown, .shutdown]).map
        GlobalState.shuttingDown =
          List.replicate i false ++ List.replicate j true) :=
  ⟨shutdown_monotone_idempotent.1 ⟨true, false⟩ _ rfl,
   shutdown_monotone_idempotent.2.1 ⟨false, true⟩,
   shutdown_monotone_idempotent.2.2.1 ⟨true, true⟩ rfl,
   shutdown_monotone_idempotent.2.2.2 ⟨false, true⟩ _⟩

/-! ### Registry map lemmas -/

lemma mapFind_mapInsert_self (m : List (String × Component)) (k : String)
    (v : Component) : mapFind (mapInsert m k v) k = some v := by
  induction m with
  | nil => simp [mapInsert, mapFind]
  | cons hd rest ih =>
      obtain ⟨k', v'⟩ := hd
      by_cases h : k' = k <;> simp [mapInsert, mapFind, h, ih]

lemma mapFind_mapInsert_other (m : List (String × Component)) (k n : String)
    (v : Component) (h : n ≠ k) :
    mapFind (mapInsert m k v) n = mapFind m n := by
  induction m with
  | nil => simp [mapInsert, mapFind, Ne.symm h]
  | cons hd rest ih =>
      obtain ⟨k', v'⟩ := hd
      by_cases h' : k' = k
      · subst h'
        simp [mapInsert, mapFind, Ne.symm h]
      · simp only [mapInsert, if_neg h']
        by_cases h'' : k' = n <;> simp [mapFind, h'', ih]

lemma mem_keys_mapInsert (m : List (String × Component)) (k a : String)
    (v : Component) :
    a ∈ (mapInsert m k v).map Prod.fst ↔ a ∈ m.map Prod.fst ∨ a = k := by
  induction m with
  | nil => simp [mapInsert]
  | cons hd rest ih =>
      obtain ⟨k', v'⟩ := hd
      simp only [mapInsert]
      split
      · next h =>
          subst h
          simp only [List.map_cons, List.mem_cons]
          tauto
      · next h =>
          simp only [List.map_cons, List.mem_cons, ih]
          tauto

lemma nodup_keys_mapInsert (m : List (String × Component)) (k : String)
    (v : Component) (h : (m.map Prod.fst).Nodup) :
    ((mapInsert m k v).map Prod.fst).Nodup := by
  induction m with
  | nil => simp [mapInsert]
  | cons hd rest ih =>
      obtain ⟨k', v'⟩ := hd
      simp only [List.map_cons, List.nodup_cons] at h
      simp only [mapInsert]
      split
      · next hk =>
          subst hk
          simp only [List.map_cons, List.nodup_cons]
          exact h
      · next hk =>
          simp only [List.map_cons, List.nodup_cons, mem_keys_mapInsert]
          exact ⟨fun hc => hc.elim h.1 (fun he => hk he), ih h.2⟩

lemma mapFind_eq_none_of_not_mem_keys (m : List (String × Component))
    (k : String) (h : k ∉ m.map Prod.fst) : mapFind m k = none := by
  induction m with
  | nil => rfl
  | cons hd rest ih =>
      obtain ⟨k', v'⟩ := hd
      simp only [List.map_cons, List.mem_cons] at h
      push_neg at h
      simp [mapFind, Ne.symm h.1, ih h.2]

lemma keys_mapErase_subset (m : List (String × Component)) (k a : String)
    (h : a ∈ (mapErase m k).map Prod.fst) : a ∈ m.map Prod.fst := by
  induction m with
  | nil => simp [mapErase] at h
  | cons hd rest ih =>
      obtain ⟨k', v'⟩ := hd
      by_cases hk : k' = k
      · simp only [mapErase, if_pos hk] at h
        simp [h]
      · simp only [mapErase, if_neg hk, List.map_cons, List.mem_cons] at h
        rcases h with h | h
        · simp [h]
        · simp [ih h]

lemma mapFind_mapErase_self (m : List (String × Component)) (k : String)
    (h : (m.map Prod.fst).Nodup) : mapFind (mapErase m k) k = none := by
  induction m with
  | nil => rfl
  | cons hd rest ih =>
      obtain ⟨k', v'⟩ := hd
      simp only [List.map_cons, List.nodup_cons] at h
      by_cases hk : k' = k
      · subst hk
        simp only [mapErase, if_pos rfl]
        exact mapFind_eq_none_of_not_mem_keys rest k' h.1
      · simp [mapErase, mapFind, hk, ih h.2]

/-! ### Registry run lemmas -/

lemma registerAll_cons (s : RegState) (c : Component) (rest : List Component) :
    registerAll s (c :: rest) = registerAll (RegisterComponent s c) rest := rfl

lemma registerAll_starts (cs : List Component) (s : RegState) :
    (registerAll s cs).starts = s.starts ++ cs.map Component.cid := by
  induction cs generalizing s with
  | nil => simp [registerAll]
  | cons c rest ih =>
      rw [registerAll_cons, ih (RegisterComponent s c)]
      simp [RegisterComponent]

lemma registerAll_stops (cs : List Component) (s : RegState) :
    (registerAll s cs).stops = s.stops := by
  induction cs generalizing s with
  | nil => rfl
  | cons c rest ih =>
      rw [registerAll_cons, ih (RegisterComponent s c)]
      rfl

lemma getComponent_registerAll_not_mem (cs : List Component) (s : RegState)
    (n : String) (h : n ∉ cs.map Component.name) :
    GetComponent (registerAll s cs) n = GetComponent s n := by
  induction cs generalizing s with
  | nil => rfl
  | cons c rest ih =>
      simp only [List.map_cons, List.mem_cons] at h
      push_neg at h
      rw [registerAll_cons, ih (RegisterComponent s c) h.2]
      simp only [GetComponent, RegisterComponent]
      exact mapFind_mapInsert_other s.components c.name n c h.1

lemma getComponent_registerAll_mem (cs : List Component) (s : RegState)
    (hname : (cs.map Component.name).Nodup) (c : Component) (hc : c ∈ cs) :
    GetComponent (registerAll s cs) c.name = some c := by
  induction cs generalizing s with
  | nil => cases hc
  | cons c0 rest ih =>
      simp only [List.map_cons, List.nodup_cons] at hname
      rcases List.mem_cons.mp hc with rfl | hc'
      · rw [registerAll_cons,
          getComponent_registerAll_not_mem rest (RegisterComponent s c)
            c.name hname.1]
        simp only [GetComponent, RegisterComponent]
        exact mapFind_mapInsert_self s.components c.name c
      · rw [registerAll_cons]
        exact ih (RegisterComponent s c0) hname.2 hc'

/-- C5: for every sequence of `RegisterComponent` calls on pairwise
distinct components with pairwise distinct names, `GetComponent name`
afterwards returns the component registered under that name, and by the
time the `i`-th `Register` call returns, `Start` has been called on the
`i`-th component exactly once (the start log restricted to the first
`i + 1` registrations counts its identity once). -/
theorem register_lookup_and_start_once (cs : List Component)
    (hname : (cs.map Component.name).Nodup)
    (hcid : (cs.map Component.cid).Nodup) :
    (∀ c ∈ cs, GetComponent (registerAll emptyReg cs) c.name = some c) ∧
    (∀ i (h : i < cs.length),
        ((registerAll emptyReg (cs.take (i + 1))).starts).count
          (cs.get ⟨i, h⟩).cid = 1) := by
  constructor
  · exact fun c hc => getComponent_registerAll_mem cs emptyReg hname c hc
  · intro i h
    rw [registerAll_starts]
    simp only [emptyReg, List.nil_append]
    rw [List.map_take]
    have hii : i < (List.take (i + 1) (cs.map Component.cid)).length := by
      simp only [List.length_take, List.length_map]
      omega
    have hget : (List.take (i + 1) (cs.map Component.cid))[i] =
        (cs.get ⟨i, h⟩).cid := by
      rw [List.getElem_take]
      simp [List.getElem_map]
    have hmem : (cs.get ⟨i, h⟩).cid ∈ List.take (i + 1) (cs.map Component.cid) := by
      rw [← hget]
      exact List.getElem_mem hii
    exact List.count_eq_one_of_mem
      (List.Nodup.sublist (List.take_sublist _ _) hcid) hmem

/-- Witness for C5 at a concrete two-component registration sequence. -/
theorem register_lookup_and_start_once_witness :
    GetComponent (registerAll emptyReg [⟨1, "A"⟩, ⟨2, "B"⟩]) "B" =
        some ⟨2, "B"⟩ ∧
    ((registerAll emptyReg ([(⟨1, "A"⟩ : Component), ⟨2, "B"⟩].take 2)).starts).count 2
        = 1 :=
  ⟨(register_lookup_and_start_once [⟨1, "A"⟩, ⟨2, "B"⟩] (by decide)
      (by decide)).1 ⟨2, "B"⟩ (by decide),
   (register_lookup_and_start_once [⟨1, "A"⟩, ⟨2, "B"⟩] (by decide)
      (by decide)).2 1 (by decide)⟩

/-- C6: registering a component under a name already present silently
replaces the prior entry in the lookup map, and the act of replacement
invokes `Stop` on nothing — the stop log is unchanged, so the replaced
component's state is untouched. -/
theorem reregister_replaces_without_stop (s : RegState) (c old : Component)
    (hold : GetComponent s c.name = some old) :
    GetComponent (RegisterComponent s c) c.name = some c ∧
    (RegisterComponent s c).stops = s.stops := by
  refine ⟨?_, rfl⟩
  simp only [GetComponent, RegisterComponent]
  exact mapFind_mapInsert_self s.components c.name c

/-- Witness for C6: a same-name re-registration at concrete inputs. -/
theorem reregister_replaces_without_stop_witness :
    GetComponent (RegisterComponent
        { components := [("N", ⟨1, "N"⟩)], starts := [1], stops := [] }
        ⟨2, "N"⟩) "N" = some ⟨2, "N"⟩ ∧
    (RegisterComponent
        { components := [("N", ⟨1, "N"⟩)], starts := [1], stops := [] }
        ⟨2, "N"⟩).stops = ([] : List Nat) :=
  reregister_replaces_without_stop
    { components := [("N", ⟨1, "N"⟩)], starts := [1], stops := [] }
    ⟨2, "N"⟩ ⟨1, "N"⟩ (by decide)

/-- C7: `UnregisterComponent` erases the mapping for the component's
name when present (afterwards `GetComponent` returns nothing, also on a
lookup miss since the erase is then a no-op), and in all cases appends
exactly one `Stop` call on the passed component to the stop log. The
key-uniqueness hypothesis is the `std::map` invariant of the source. -/
theorem unregister_erases_and_stops_once (s : RegState) (c : Component)
    (hkeys : (s.components.map Prod.fst).Nodup) :
    GetComponent (UnregisterComponent s c) c.name = none ∧
    (UnregisterComponent s c).stops = s.stops ++ [c.cid] := by
  refine ⟨?_, rfl⟩
  simp only [GetComponent, UnregisterComponent]
  exact mapFind_mapErase_self s.components c.name hkeys

/-- Witness for C7: unregistering on a lookup miss still stops the
component. -/
theorem unregister_erases_and_stops_once_witness :
    GetComponent (UnregisterComponent
        { components := [("M", ⟨1, "M"⟩)], starts := [1], stops := [] }
        ⟨9, "Q"⟩) "Q" = none ∧
    (UnregisterComponent
        { components := [("M", ⟨1, "M"⟩)], starts := [1], stops := [] }
        ⟨9, "Q"⟩).stops = [9] :=
  unregister_erases_and_stops_once
    { components := [("M", ⟨1, "M"⟩)], starts := [1], stops := [] }
    ⟨9, "Q"⟩ (by decide)

/-- C10: `UnregisterComponent` removes by name, not by identity. After
registering `A` and then `B` under the same name, `Unregister(A)` erases
whatever is mapped under the name (here `B`), so the lookup then returns
nothing; `Stop` is called on `A` (the passed component), and `B` is never
stopped by that call. -/
theorem unregister_removes_by_name (s : RegState) (A B : Component)
    (hkeys : (s.components.map Prod.fst).Nodup)
    (hname : A.name = B.name) (hcid : B.cid ≠ A.cid)
    (hfresh : B.cid ∉ s.stops) :
    GetComponent
        (UnregisterComponent (RegisterComponent (RegisterComponent s A) B) A)
        A.name = none ∧
    (UnregisterComponent (RegisterComponent (RegisterComponent s A) B) A).stops
        = s.stops ++ [A.cid] ∧
    B.cid ∉ (UnregisterComponent (RegisterComponent (RegisterComponent s A) B)
        A).stops := by
  have hk2 : (((RegisterComponent (RegisterComponent s A) B).components).map
      Prod.fst).Nodup := by
    exact nodup_keys_mapInsert _ B.name B
      (nodup_keys_mapInsert _ A.name A hkeys)
  refine ⟨?_, rfl, ?_⟩
  · simp only [GetComponent, UnregisterComponent]
    exact mapFind_mapErase_self _ A.name hk2
  · simp only [UnregisterComponent, RegisterComponent, List.mem_append,
      List.mem_singleton]
    rintro (h | h)
    · exact hfresh h
    · exact hcid h

/-- Witness for C10: register `A = (1, "N")`, then `B = (2, "N")`, then
unregister `A`; the lookup for `"N"` is empty and only `A` was stopped. -/
theorem unregister_removes_by_name_witness :
    GetComponent
        (UnregisterComponent
          (RegisterComponent (RegisterComponent emptyReg ⟨1, "N"⟩) ⟨2, "N"⟩)
          ⟨1, "N"⟩) "N" = none ∧
    (UnregisterComponent
        (RegisterComponent (RegisterComponent emptyReg ⟨1, "N"⟩) ⟨2, "N"⟩)
        ⟨1, "N"⟩).stops = [1] ∧
    (2 : Nat) ∉ (UnregisterComponent
        (RegisterComponent (RegisterComponent emptyReg ⟨1, "N"⟩) ⟨2, "N"⟩)
        ⟨1, "N"⟩).stops :=
  unregister_removes_by_name emptyReg ⟨1, "N"⟩ ⟨2, "N"⟩ (by decide) rfl
    (by decide) (by decide)

/-! ### Event loop lemmas -/

/-- The source loop produces exactly the spec's iteration-by-iteration
trace. -/
lemma runEventLoop_eq_spec (script : List LoopEnv) (sd : Bool) :
    RunEventLoop sd script = specEventLoop sd script := by
  induction script generalizing sd with
  | nil => rfl
  | cons i rest ih =>
      cases sd
      · cases hc : i.sdDuringClear <;> cases ht : i.sdDuringTimers <;>
          simp [RunEventLoop, specEventLoop, specIterSteps, hc, ht, ih]
      · rfl

/-- C2: every iteration of `RunEventLoop` performs exactly the five spec
steps in order — the loop trace equals, for every environment script and
starting flag, the concatenation of spec-shaped iterations — and when the
shutdown flag is set during step (2) (or the preceding cleanup), the
iteration's trace ends right after `ProcessTimers`: the loop exits
without blocking on the event queue and dispatches nothing further. -/
theorem eventLoop_iteration_order :
    (∀ (sd : Bool) (script : List LoopEnv),
        RunEventLoop sd script = specEventLoop sd script) ∧
    (∀ (i : LoopEnv) (rest : List LoopEnv),
        (i.sdDuringClear || i.sdDuringTimers) = true →
        RunEventLoop false (i :: rest) =
          [LoopAct.clearHeld, LoopAct.processTimers i.sleep]) := by
  refine ⟨fun sd script => runEventLoop_eq_spec script sd,
    fun i rest h => ?_⟩
  simp [RunEventLoop, h]

/-- Witness for C2: a concrete iteration in which a timer callback
requests shutdown; the trace stops after the timer-processing step. -/
theorem eventLoop_iteration_order_witness :
    RunEventLoop false [⟨false, 5, true, [7], false⟩] =
      [LoopAct.clearHeld, LoopAct.processTimers 5] :=
  eventLoop_iteration_order.2 ⟨false, 5, true, [7], false⟩ [] rfl

/-- C3 counterexample: in debug mode a fault escaping `Main` propagates
out of `Run`, but — contrary to the claim — the singleton reference is
NOT released before the fault surfaces: stack unwinding skips the
`m_Instance.reset()` statement, which has no catch block or RAII guard
around it in the debug branch. -/
theorem run_debug_fault_keeps_instance :
    (Run true (fun _ => .error ⟨"std::runtime_error", "boom"⟩) []).result =
        .error ⟨"std::runtime_error", "boom"⟩ ∧
    (Run true (fun _ => .error ⟨"std::runtime_error", "boom"⟩) []).instanceSet =
        true :=
  ⟨rfl, rfl⟩

/-- C3 (amended): when `Main` raises a fault and debug mode is disabled,
the fault is caught, its kind and message are logged, the singleton
reference is released, and `Run` returns `EXIT_FAILURE`; when debug mode
is enabled, the fault propagates out of `Run` uncaught and the singleton
reference is NOT released (it is still set when the fault surfaces). -/
theorem run_fault_containment (main : List String → Except Fault Int)
    (args : List String) (f : Fault) (h : main args = .error f) :
    Run false main args =
      { result := .ok EXIT_FAILURE
        instanceSet := false
        logs := ["---", "Exception: " ++ f.typeName,
                 "Message: " ++ f.message] } ∧
    (Run true main args).result = .error f ∧
    (Run true main args).instanceSet = true := by
  simp [Run, h]

/-- Witness for C3 at a concrete faulting `Main`. -/
theorem run_fault_containment_witness :
    Run false (fun _ => .error ⟨"std::logic_error", "bad"⟩) ["app"] =
      { result := .ok EXIT_FAILURE
        instanceSet := false
        logs := ["---", "Exception: " ++ "std::logic_error",
                 "Message: " ++ "bad"] } ∧
    (Run true (fun _ => .error ⟨"std::logic_error", "bad"⟩) ["app"]).result =
      .error ⟨"std::logic_error", "bad"⟩ ∧
    (Run true (fun _ => .error ⟨"std::logic_error", "bad"⟩) ["app"]).instanceSet =
      true :=
  run_fault_containment _ ["app"] ⟨"std::logic_error", "bad"⟩ rfl

/-! ### Loader error paths -/

/-- A loader environment in which no library can be opened. -/
def loaderEnvNoLib : LoaderEnv :=
  { dlopen := fun _ => none
    dlerror := "file not found"
    dlsym := fun _ _ => none
    create := fun _ => ⟨0, ""⟩ }

/-- A loader environment in which every library opens but exports no
symbol. -/
def loaderEnvNoSymbol : LoaderEnv :=
  { dlopen := fun _ => some 0
    dlerror := ""
    dlsym := fun _ _ => none
    create := fun _ => ⟨0, ""⟩ }

/-- C4 counterexample: when the library opens but the factory symbol is
absent, the error message is the fixed string
`Loadable module does not contain CreateComponent function`, which does
not contain the attempted path — refuting the claim that this error
message also carries the path. -/
theorem loadComponent_missing_symbol_message_lacks_path :
    LoadComponent loaderEnvNoSymbol "/x/y.so" emptyReg =
      .error "Loadable module does not contain CreateComponent function" ∧
    ¬ strContains "Loadable module does not contain CreateComponent function"
        "/x/y.so" := by
  refine ⟨rfl, ?_⟩
  rintro ⟨pre, post, hp⟩
  have hm : '/' ∈
      "Loadable module does not contain CreateComponent function".data := by
    rw [hp]
    simp only [List.mem_append]
    have hx : '/' ∈ "/x/y.so".data := by decide
    tauto
  exact absurd hm (by decide)

/-- C4 (amended): if the library cannot be opened, `LoadComponent` fails
with a loader error whose message contains the attempted path; if the
library opens but the factory symbol is absent, it fails with a distinct
contract-violation error — whose fixed message, however, does not contain
the path (the two error messages are never equal). -/
theorem loadComponent_error_paths :
    (∀ (env : LoaderEnv) (path : String) (s : RegState),
        env.dlopen path = none →
        LoadComponent env path s =
          .error ("Could not load module '" ++ path ++ "': " ++ env.dlerror) ∧
        strContains ("Could not load module '" ++ path ++ "': " ++ env.dlerror)
          path) ∧
    (∀ (env : LoaderEnv) (path : String) (s : RegState) (hm : Nat),
        env.dlopen path = some hm → env.dlsym hm "CreateComponent" = none →
        LoadComponent env path s =
          .error "Loadable module does not contain CreateComponent function") ∧
    (∀ (path d : String),
        ("Could not load module '" ++ path ++ "': " ++ d) ≠
          "Loadable module does not contain CreateComponent function") := by
  refine ⟨fun env path s h => ⟨by simp [LoadComponent, h], ?_⟩,
    fun env path s hm h1 h2 => by simp [LoadComponent, h1, h2],
    fun path d h => ?_⟩
  · refine ⟨"Could not load module '".data, ("': " ++ env.dlerror).data, ?_⟩
    simp [String.data_append]
  · have hm : Char.ofNat 39 ∈
        ("Could not load module '" ++ path ++ "': " ++ d).data := by
      rw [String.data_append, String.data_append, String.data_append]
      simp only [List.mem_append]
      have hq : Char.ofNat 39 ∈ "Could not load module '".data := by decide
      tauto
    rw [h] at hm
    exact absurd hm (by decide)

/-- Witness for C4 at concrete loader environments: a library that fails
to open (message carries the path), a library without the factory symbol,
and the distinctness of the two messages. -/
theorem loadComponent_error_paths_witness :
    (LoadComponent loaderEnvNoLib "/x/y.so" emptyReg =
        .error ("Could not load module '" ++ "/x/y.so" ++ "': " ++
          loaderEnvNoLib.dlerror) ∧
      strContains ("Could not load module '" ++ "/x/y.so" ++ "': " ++
        loaderEnvNoLib.dlerror) "/x/y.so") ∧
    LoadComponent loaderEnvNoSymbol "/x/y.so" emptyReg =
      .error "Loadable module does not contain CreateComponent function" ∧
    ("Could not load module '" ++ "/x/y.so" ++ "': " ++ "e") ≠
      "Loadable module does not contain CreateComponent function" :=
  ⟨loadComponent_error_paths.1 loaderEnvNoLib "/x/y.so" emptyReg rfl,
   loadComponent_error_paths.2.1 loaderEnvNoSymbol "/x/y.so" emptyReg 0 rfl rfl,
   loadComponent_error_paths.2.2 "/x/y.so" "e"⟩

/-! ### Executable path resolution -/

/-- Written from the spec's words: resolving a path relative to the
current working directory (an absolute path resolves to itself). -/
def resolveRelative (wd p : String) : String :=
  if p.data.head? = some '/' then p else wd ++ "/" ++ p

/-- The candidate the source builds from `argv0` and the working
directory equals spec-side relative resolution. -/
lemma candidate_eq_resolveRelative (wd argv0 : String) :
    (if argv0.data.head? ≠ some '/' then wd ++ "/" ++ argv0 else argv0) =
      resolveRelative wd argv0 := by
  by_cases h : argv0.data.head? = some '/' <;> simp [resolveRelative, h]

/-- Case lemma: `getcwd` failure. -/
lemma resolveExePath_cwd_none (env : ExeEnv) (argv0 : String)
    (h : env.cwd = none) :
    resolveExePath env argv0 = .error (.posixError "getcwd failed") := by
  simp [resolveExePath, h]

/-- Case lemma: `argv0` contains a separator — the cwd-relative candidate
is canonicalized. -/
lemma resolveExePath_with_sep (env : ExeEnv) (argv0 wd : String)
    (hcwd : env.cwd = some wd) (hsl : argv0.data.contains '/' = true) :
    resolveExePath env argv0 =
      (match env.realpath (resolveRelative wd argv0) with
       | none => .error (.posixError "realpath failed")
       | some c => .ok c) := by
  simp only [resolveExePath, hcwd]
  rw [hsl]
  simp [resolveRelative]

/-- Case lemma: no separator and `PATH` unset — the source keeps the
cwd-relative candidate (no search, no failure). -/
lemma resolveExePath_no_sep_no_path (env : ExeEnv) (argv0 wd : String)
    (hcwd : env.cwd = some wd) (hsl : argv0.data.contains '/' = false)
    (hpe : env.pathEnv = none) :
    resolveExePath env argv0 =
      (match env.realpath (resolveRelative wd argv0) with
       | none => .error (.posixError "realpath failed")
       | some c => .ok c) := by
  simp only [resolveExePath, hcwd, hpe]
  rw [hsl]
  simp [resolveRelative]

/-- Case lemma: no separator, `PATH` set, no directory matches. -/
lemma resolveExePath_search_none (env : ExeEnv) (argv0 wd pe : String)
    (hcwd : env.cwd = some wd) (hsl : argv0.data.contains '/' = false)
    (hpe : env.pathEnv = some pe)
    (hfind : (splitStr ':' pe).find? (fun p => env.access (p ++ "/" ++ argv0)) =
      none) :
    resolveExePath env argv0 =
      .error (.runtimeError "Could not determine executable path.") := by
  simp only [resolveExePath, hcwd, hpe]
  rw [hsl]
  simp [hfind]

/-- Case lemma: no separator, `PATH` set, first matching directory wins. -/
lemma resolveExePath_search_some (env : ExeEnv) (argv0 wd pe p : String)
    (hcwd : env.cwd = some wd) (hsl : argv0.data.contains '/' = false)
    (hpe : env.pathEnv = some pe)
    (hfind : (splitStr ':' pe).find? (fun q => env.access (q ++ "/" ++ argv0)) =
      some p) :
    resolveExePath env argv0 =
      (match env.realpath (p ++ "/" ++ argv0) with
       | none => .error (.posixError "realpath failed")
       | some c => .ok c) := by
  simp only [resolveExePath, hcwd, hpe]
  rw [hsl]
  simp [hfind]

/-- C8: `GetExePath`'s resolution policy (POSIX branch). (1) When the
working directory cannot be obtained the call fails with an I/O
(`PosixException`) error; (2) when `argv0` contains a path separator it
is resolved relative to the working directory and then canonicalized,
a canonicalization failure being an I/O error; (3) when `argv0` contains
no separator and no directory of the `PATH` variable holds an executable
match, the call fails; (4) when some directory matches, the first match
is taken and then canonicalized, a canonicalization failure being an I/O
error. -/
theorem getExePath_resolution_policy :
    (∀ (env : ExeEnv) (argv0 : String), env.cwd = none →
        resolveExePath env argv0 = .error (.posixError "getcwd failed")) ∧
    (∀ (env : ExeEnv) (argv0 wd : String), env.cwd = some wd →
        argv0.data.contains '/' = true →
        resolveExePath env argv0 =
          (match env.realpath (resolveRelative wd argv0) with
           | none => .error (.posixError "realpath failed")
           | some c => .ok c)) ∧
    (∀ (env : ExeEnv) (argv0 wd pe : String), env.cwd = some wd →
        argv0.data.contains '/' = false → env.pathEnv = some pe →
        (splitStr ':' pe).find? (fun p => env.access (p ++ "/" ++ argv0)) =
          none →
        resolveExePath env argv0 =
          .error (.runtimeError "Could not determine executable path.")) ∧
    (∀ (env : ExeEnv) (argv0 wd pe p : String), env.cwd = some wd →
        argv0.data.contains '/' = false → env.pathEnv = some pe →
        (splitStr ':' pe).find? (fun q => env.access (q ++ "/" ++ argv0)) =
          some p →
        resolveExePath env argv0 =
          (match env.realpath (p ++ "/" ++ argv0) with
           | none => .error (.posixError "realpath failed")
           | some c => .ok c)) := by
  exact ⟨fun env argv0 h => resolveExePath_cwd_none env argv0 h,
    fun env argv0 wd hcwd hsl => resolveExePath_with_sep env argv0 wd hcwd hsl,
    fun env argv0 wd pe hcwd hsl hpe hfind =>
      resolveExePath_search_none env argv0 wd pe hcwd hsl hpe hfind,
    fun env argv0 wd pe p hcwd hsl hpe hfind =>
      resolveExePath_search_some env argv0 wd pe p hcwd hsl hpe hfind⟩

/-- Witness for C8 at four concrete environments, one per case. -/
theorem getExePath_resolution_policy_witness :
    resolveExePath ⟨none, none, fun _ => false, fun _ => none⟩ "tool" =
        .error (.posixError "getcwd failed") ∧
    resolveExePath ⟨some "/w", none, fun _ => false, fun _ => some "/r/t"⟩
        "bin/t" = .ok "/r/t" ∧
    resolveExePath ⟨some "/w", some "/p:/q", fun _ => false, fun _ => some "/r"⟩
        "tool" = .error (.runtimeError "Could not determine executable path.") ∧
    resolveExePath ⟨some "/w", some "/p:/q", fun _ => true, fun _ => some "/r"⟩
        "tool" = .ok "/r" :=
  ⟨getExePath_resolution_policy.1 _ "tool" rfl,
   getExePath_resolution_policy.2.1 _ "bin/t" "/w" rfl (by decide),
   getExePath_resolution_policy.2.2.1 _ "tool" "/w" "/p:/q" rfl (by decide)
     rfl (by decide),
   getExePath_resolution_policy.2.2.2 _ "tool" "/w" "/p:/q" "/p" rfl
     (by decide) rfl (by decide)⟩

/-- The canonicalization step succeeds only with a `realpath` output. -/
lemma canonicalize_ok (env : ExeEnv) (ep r : String)
    (h : (match env.realpath ep with
          | none => Except.error (ExeErr.posixError "realpath failed")
          | some c => (Except.ok c : Except ExeErr String)) = .ok r) :
    ∃ s, env.realpath s = some r := by
  cases hreal : env.realpath ep with
  | none => rw [hreal] at h; cases h
  | some c =>
      rw [hreal] at h
      injection h with h2
      subst h2
      exact ⟨ep, hreal⟩

/-- A successful resolution is always the output of `realpath`. -/
lemma resolveExePath_ok_realpath (env : ExeEnv) (argv0 r : String)
    (h : resolveExePath env argv0 = .ok r) :
    ∃ s, env.realpath s = some r := by
  cases hcwd : env.cwd with
  | none => rw [resolveExePath_cwd_none env argv0 hcwd] at h; cases h
  | some wd =>
      cases hsl : argv0.data.contains '/' with
      | true =>
          rw [resolveExePath_with_sep env argv0 wd hcwd hsl] at h
          exact canonicalize_ok env _ r h
      | false =>
          cases hpe : env.pathEnv with
          | none =>
              rw [resolveExePath_no_sep_no_path env argv0 wd hcwd hsl hpe] at h
              exact canonicalize_ok env _ r h
          | some pe =>
              cases hfind : (splitStr ':' pe).find?
                  (fun p => env.access (p ++ "/" ++ argv0)) with
              | none =>
                  rw [resolveExePath_search_none env argv0 wd pe hcwd hsl hpe
                    hfind] at h
                  cases h
              | some p =>
                  rw [resolveExePath_search_some env argv0 wd pe p hcwd hsl hpe
                    hfind] at h
                  exact canonicalize_ok env _ r h

/-- C9: `GetExePath` is idempotent. Under the POSIX guarantee that
`realpath` returns absolute paths, a first successful call caches its
result, the returned path is absolute, and every later call — with any
working directory, `PATH` or `argv0` — returns the identical cached value
without re-resolving. -/
theorem getExePath_idempotent (env : ExeEnv) (argv0 r : String)
    (habs : ∀ s t, env.realpath s = some t → t.data.head? = some '/')
    (h : (GetExePath "" env argv0).out = .ok r) :
    (GetExePath "" env argv0).cache = r ∧
    r.data.head? = some '/' ∧
    (∀ (env' : ExeEnv) (argv0' : String),
        GetExePath r env' argv0' =
          { out := .ok r, cache := r, resolved := false }) := by
  have hres : resolveExePath env argv0 = .ok r := by
    simp only [GetExePath, ne_eq, not_true_eq_false, if_neg, ite_false] at h
    split at h
    · rename_i hok
      cases h
      exact hok
    · cases h
  have hrp := resolveExePath_ok_realpath env argv0 r hres
  obtain ⟨s', hs'⟩ := hrp
  have habs' : r.data.head? = some '/' := habs s' r hs'
  have hne : r ≠ "" := by
    intro he
    subst he
    simp at habs'
  refine ⟨?_, habs', fun env' argv0' => ?_⟩
  · simp [GetExePath, hres]
  · simp [GetExePath, hne]

/-- A concrete environment for the C9 witness: every path canonicalizes
to `/abs/tool`. -/
def exeEnvConst : ExeEnv :=
  { cwd := some "/w"
    pathEnv := none
    access := fun _ => false
    realpath := fun _ => some "/abs/tool" }

/-- Witness for C9: a first call from an empty cache caches `/abs/tool`,
and a later call with a different environment returns the cached value
without resolving. -/
theorem getExePath_idempotent_witness :
    (GetExePath "" exeEnvConst "tool").cache = "/abs/tool" ∧
    ("/abs/tool" : String).data.head? = some '/' ∧
    (∀ (env' : ExeEnv) (argv0' : String),
        GetExePath "/abs/tool" env' argv0' =
          { out := .ok "/abs/tool", cache := "/abs/tool", resolved := false }) :=
  getExePath_idempotent exeEnvConst "tool" "/abs/tool"
    (fun s t ht => by
      obtain rfl : "/abs/tool" = t := Option.some.inj ht
      rfl)
    rfl

end Icinga
